import Mathlib

/-!
# Verification of the KCL parser / loader / scope-resolver core

A shallow embedding of the relevant parts of the KusionStack/kcl repository:

* `kclvm/sema/src/core/scope.rs` — the `Scope` trait with its `RootSymbolScope`
  and `LocalSymbolScope` implementations (`look_up_def`, `get_all_defs`,
  `contains_pos`);
* `kclvm/parser/src/lib.rs` — `find_packages`, `parse_expr`, and the
  post-traversal tail of `parse_program` (topological ordering, cycle
  diagnostic, program assembly);
* the expression grammar of the recursive-descent parser, modelled from the
  specification (the expression-parser source file is not among the sampled
  sources; its behaviour is pinned by the repository's parser tests).

Arenas of symbols and scopes are modelled as association lists from `Nat`
indices; `SymbolRef` is modelled as its arena index (`Nat`).  Filesystem
probes are modelled as oracle inputs.  All definitions are executable.
-/

namespace KclScope

/-- Source position, mirroring `kclvm_error::Position`
(`{filename: String, line: u64, column: Option<u64>}`). -/
structure Position where
  filename : String
  line : Nat
  column : Option Nat
deriving Repr, DecidableEq

/-- Modelled from the spec: `Position::less_equal` lives in the `kclvm_error`
crate, which is not among the sampled sources.  The spec describes
`contains_pos` on local scopes as "an interval test against `[start, end]`";
we model the position order lexicographically by line then column, a missing
column counting as column 0. -/
def Position.lessEqual (a b : Position) : Bool :=
  a.line < b.line ∨ (a.line = b.line ∧ a.column.getD 0 ≤ b.column.getD 0)

/-- A symbol's arena index (`SymbolRef` in `core/symbol.rs`, modelled as the
raw index). -/
abbrev SymbolIdx := Nat

/-- Modelled from the spec: the semantic record behind a symbol
(`core/symbol.rs` is not among the sampled sources).  Per the spec, "Symbols
carry enough information to answer attribute-lookup queries"; we model exactly
that: an attribute table from names to symbol indices, kept in insertion
order. -/
structure SymbolInfo where
  attrs : List (String × SymbolIdx)
deriving Repr, DecidableEq

/-- `get_attribute(name)`: look the name up in the symbol's attribute table. -/
def SymbolInfo.getAttribute (s : SymbolInfo) (name : String) : Option SymbolIdx :=
  s.attrs.lookup name

/-- `get_all_attributes()`: all attribute symbols, in stored order. -/
def SymbolInfo.getAllAttributes (s : SymbolInfo) : List SymbolIdx :=
  s.attrs.map (·.2)

/-- The symbol arena (`KCLSymbolData`), modelled as an association list from
arena indices to symbol records. -/
structure SymbolData where
  symbols : List (SymbolIdx × SymbolInfo)
deriving Repr, DecidableEq

/-- `KCLSymbolData::get_symbol`. -/
def SymbolData.getSymbol (d : SymbolData) (r : SymbolIdx) : Option SymbolInfo :=
  d.symbols.lookup r

/-- `ScopeKind` from `core/scope.rs`. -/
inductive ScopeKind where
  | Local
  | Root
deriving Repr, DecidableEq

/-- `ScopeRef { id, kind }` from `core/scope.rs`; the generational-arena index
is modelled as a `Nat`. -/
structure ScopeRef where
  id : Nat
  kind : ScopeKind
deriving Repr, DecidableEq

/-- `RootSymbolScope` (the fields its embedded methods read: `pkgpath`,
`filename`, `owner`). -/
structure RootSymbolScope where
  pkgpath : String
  filename : String
  owner : SymbolIdx
deriving Repr, DecidableEq

/-- `LocalSymbolScope` (the fields its embedded methods read: `parent`,
`owner`, `defs`, `start`, `end`).  `defs` is an insertion-ordered map, modelled
as an association list. -/
structure LocalSymbolScope where
  parent : ScopeRef
  owner : Option SymbolIdx
  defs : List (String × SymbolIdx)
  start : Position
  stop : Position
deriving Repr, DecidableEq

/-- `ScopeData`: the two scope arenas, modelled as association lists from
arena indices. -/
structure ScopeData where
  locals : List (Nat × LocalSymbolScope)
  roots : List (Nat × RootSymbolScope)
deriving Repr, DecidableEq

/-- `ScopeData::get_scope`, split by kind. -/
def ScopeData.getLocal (d : ScopeData) (i : Nat) : Option LocalSymbolScope :=
  d.locals.lookup i

def ScopeData.getRoot (d : ScopeData) (i : Nat) : Option RootSymbolScope :=
  d.roots.lookup i

/-- `RootSymbolScope::look_up_def`: query the package owner symbol's attribute
table; the `?` on `get_symbol` makes a dangling owner reference answer
`None`. -/
def RootSymbolScope.lookUpDef (s : RootSymbolScope) (name : String)
    (symbolData : SymbolData) : Option SymbolIdx := do
  let packageSymbol ← symbolData.getSymbol s.owner
  packageSymbol.getAttribute name

/-- `LocalSymbolScope::look_up_def` / scope-chain dispatch of
`Scope::look_up_def`.  Check the local `defs` first; on a miss, if the scope
has an owner, query the owner symbol's attribute table (a dangling owner
reference answers `None`, matching the `?` in the source); on a further miss
recurse into the parent scope (a dangling parent reference answers `None`).
The parent chain is walked on `fuel` (the Rust recursion consumes stack
instead; every theorem below supplies enough fuel for the scope data at
hand). -/
def lookUpDef (fuel : Nat) (scope : ScopeRef) (name : String)
    (scopeData : ScopeData) (symbolData : SymbolData) : Option SymbolIdx :=
  match fuel with
  | 0 => none
  | fuel + 1 =>
    match scope.kind with
    | ScopeKind.Root =>
      match scopeData.getRoot scope.id with
      | none => none
      | some root => root.lookUpDef name symbolData
    | ScopeKind.Local =>
      match scopeData.getLocal scope.id with
      | none => none
      | some local_ =>
        match local_.defs.lookup name with
        | some symbolRef => some symbolRef
        | none =>
          let viaOwner : Option (Option SymbolIdx) :=
            match local_.owner with
            | some owner =>
              match symbolData.getSymbol owner with
              | none => none
              | some ownerSymbol =>
                match ownerSymbol.getAttribute name with
                | some symbolRef => some (some symbolRef)
                | none => some none
            | none => some none
          match viaOwner with
          | none => none
          | some (some symbolRef) => some symbolRef
          | some none => lookUpDef fuel local_.parent name scopeData symbolData

/-- `RootSymbolScope::get_all_defs`: the package owner symbol's full attribute
list, in stored order (the source performs no sort here); a dangling owner
reference yields `[]`. -/
def RootSymbolScope.getAllDefs (s : RootSymbolScope)
    (symbolData : SymbolData) : List SymbolIdx :=
  match symbolData.getSymbol s.owner with
  | some owner => owner.getAllAttributes
  | none => []

/-- The owner contribution to a local scope's `get_all_defs`: the owner
symbol's attributes when the scope has an owner that resolves in the arena,
nothing otherwise. -/
def ownerAttributes (symbolData : SymbolData) (s : LocalSymbolScope) :
    List SymbolIdx :=
  match s.owner with
  | some owner =>
    match symbolData.getSymbol owner with
    | some ownerSymbol => ownerSymbol.getAllAttributes
    | none => []
  | none => []

/-- `Scope::get_all_defs` dispatch: a local scope accumulates its own `defs`
values, then its owner symbol's attributes (if the owner resolves), then the
parent scope's `get_all_defs`, and finally sorts the result (`result.sort()`
in the source); a root scope returns the package owner's attributes
unsorted. -/
def getAllDefs (fuel : Nat) (scope : ScopeRef)
    (scopeData : ScopeData) (symbolData : SymbolData) : List SymbolIdx :=
  match fuel with
  | 0 => []
  | fuel + 1 =>
    match scope.kind with
    | ScopeKind.Root =>
      match scopeData.getRoot scope.id with
      | none => []
      | some root => root.getAllDefs symbolData
    | ScopeKind.Local =>
      match scopeData.getLocal scope.id with
      | none => []
      | some local_ =>
        let fromDefs := local_.defs.map (·.2)
        let fromOwner := ownerAttributes symbolData local_
        let fromParent := getAllDefs fuel local_.parent scopeData symbolData
        (fromDefs ++ fromOwner ++ fromParent).mergeSort (· ≤ ·)

/-- A path, as compared by `std::path::Path`: the list of its non-empty
components.  (`Path::new` splits on separators; comparison is
component-wise.) -/
def pathComponents (s : String) : List String :=
  (s.splitOn "/").filter (· ≠ "")

/-- `Path::parent`: drop the last component; `None` when there is no
component left to drop. -/
def pathParent (l : List String) : Option (List String) :=
  match l with
  | [] => none
  | _ :: _ => some l.dropLast

/-- The `.k`-stripping both branches of `RootSymbolScope::contains_pos`
apply: `strip_suffix(".k")` when the name ends in `.k`, the name itself
otherwise. -/
def stripK (s : String) : String :=
  if s.endsWith ".k" then s.dropRight 2 else s

/-- `RootSymbolScope::contains_pos`, transcribed from the source: compare the
`.k`-stripped scope file against the `.k`-stripped position file; when they
differ, accept exactly when the position path's parent equals the scope
path. -/
def RootSymbolScope.containsPos (s : RootSymbolScope) (pos : Position) : Bool :=
  let realPkgPath := pathComponents (stripK s.filename)
  let realPosPath := pathComponents (stripK pos.filename)
  if realPkgPath ≠ realPosPath then
    match pathParent realPosPath with
    | some parent => parent = realPkgPath
    | none => false
  else
    true

/-- `LocalSymbolScope::contains_pos`, transcribed from the source: same file
and `start ≤ pos ≤ end`. -/
def LocalSymbolScope.containsPos (s : LocalSymbolScope) (pos : Position) : Bool :=
  s.start.filename = pos.filename
    ∧ s.start.lessEqual pos
    ∧ pos.lessEqual s.stop

/-- The spec's reading of root-scope position containment: the position's file
is the scope's own file (up to the `.k` extension both sides strip), or the
position's file lives directly in the package's physical directory (the
directory the scope's stripped filename denotes). -/
def rootContainsPosSpec (s : RootSymbolScope) (pos : Position) : Prop :=
  pathComponents (stripK pos.filename) = pathComponents (stripK s.filename)
    ∨ pathParent (pathComponents (stripK pos.filename))
        = some (pathComponents (stripK s.filename))

/-- The spec's reading of local-scope position containment: filename equality
plus the interval test. -/
def localContainsPosSpec (s : LocalSymbolScope) (pos : Position) : Prop :=
  s.start.filename = pos.filename
    ∧ s.start.lessEqual pos = true
    ∧ pos.lessEqual s.stop = true

end KclScope

namespace KclLoader

/-- The closed diagnostic taxonomy (`kclvm_error::ErrorKind`), restricted to
the kinds the embedded loader code emits or the spec names. -/
inductive ErrorKind where
  | CannotFindModule
  | RecursiveLoad
  | InvalidSyntax
deriving Repr, DecidableEq

/-- One diagnostic recorded through the session sink's `add_error(kind,
messages)`.  Of the structured message only the kind and the message text
matter to the claims; range, style, note and suggested replacement are
dropped. -/
structure Diagnostic where
  kind : ErrorKind
  message : String
deriving Repr, DecidableEq

/-- `PkgInfo` from `kclvm/parser/src/lib.rs`. -/
structure PkgInfo where
  pkg_name : String
  pkg_root : String
  pkg_path : String
  k_files : List String
deriving Repr, DecidableEq

/-- The filesystem-dependent outcomes `find_packages` consumes, supplied as an
oracle: `is_plugin_pkg(pkg_path)`, `is_builtin_pkg(pkg_path)` (prefix test and
membership in the standard-module list, both defined outside the sampled
sources), and the results of `is_internal_pkg` (search under the current
package root) and `is_external_pkg` (search of the vendor directories and the
package map). -/
structure ResolveEnv where
  isPlugin : Bool
  isBuiltin : Bool
  internalRes : Except String (Option PkgInfo)
  vendorRes : Except String (Option PkgInfo)

/-- The message of the plugin-disabled diagnostic in `find_packages`. -/
def pluginDisabledMsg (pkgPath : String) : String :=
  "the plugin package `" ++ pkgPath ++
    "` is not found, please confirm if plugin mode is enabled"

/-- The message of the internal/vendor conflict diagnostic in
`find_packages`. -/
def multipleFoundMsg (pkgPath : String) : String :=
  "the `" ++ pkgPath ++
    "` is found multiple times in the current package and vendor package"

/-- The message of the not-found diagnostic in `find_packages`. -/
def notFoundMsg (pkgPath : String) : String :=
  "pkgpath " ++ pkgPath ++ " not found in the program"

/-- `find_packages` from `kclvm/parser/src/lib.rs`, over the resolution
oracle.  Returns the `Result<Option<PkgInfo>>` together with the session's
diagnostic list after the call (`add_error` appends; `add_suggestions` feeds a
separate suggestion sink and is not modelled). -/
def find_packages (pkgPath : String) (loadPlugins : Bool) (env : ResolveEnv)
    (diags : List Diagnostic) :
    Except String (Option PkgInfo) × List Diagnostic :=
  if pkgPath = "" then
    (Except.ok none, diags)
  else if env.isPlugin then
    if !loadPlugins then
      (Except.ok none,
        diags ++ [⟨ErrorKind.CannotFindModule, pluginDisabledMsg pkgPath⟩])
    else
      (Except.ok none, diags)
  else if env.isBuiltin then
    (Except.ok none, diags)
  else
    match env.internalRes with
    | Except.error e => (Except.error e, diags)
    | Except.ok isInternal =>
      match env.vendorRes with
      | Except.error e => (Except.error e, diags)
      | Except.ok isVendor =>
        if isVendor.isSome ∧ isInternal.isSome then
          (Except.ok none,
            diags ++ [⟨ErrorKind.CannotFindModule, multipleFoundMsg pkgPath⟩])
        else
          match isInternal.or isVendor with
          | some pkgInfo => (Except.ok (some pkgInfo), diags)
          | none =>
            (Except.ok none,
              diags ++ [⟨ErrorKind.CannotFindModule, notFoundMsg pkgPath⟩])

/-- `PkgFile` (canonical file path plus owning package path). -/
structure PkgFile where
  path : String
  pkg_path : String
deriving Repr, DecidableEq

/-- `Pkg` (package name and root) — the `pkgmap` value type. -/
structure Pkg where
  pkg_name : String
  pkg_root : String
deriving Repr, DecidableEq

/-- Modelled from the spec: the file dependency graph
(`kclvm/parser/src/file_graph.rs` is not among the sampled sources).  Nodes
are `PkgFile`s; `edges` maps each updated file to its outgoing dependency
list. -/
structure PkgFileGraph where
  edges : List (PkgFile × List PkgFile)
deriving Repr, DecidableEq

/-- All known files of the graph: every updated file and every dependency
target, without duplicates, in first-insertion order.  This is the fallback
(unsorted) complete file listing the spec prescribes when the topological
sort fails. -/
def PkgFileGraph.nodes (g : PkgFileGraph) : List PkgFile :=
  (g.edges.map (·.1) ++ g.edges.flatMap (·.2)).eraseDups

/-- Modelled from the spec: one round of the topological sort — find the
first pending node all of whose dependencies have already left the pending
set. -/
def topoPick [DecidableEq α] (pending : List (α × List α)) :
    Option (α × List α) :=
  pending.find? fun e => e.2.all fun d => !(pending.any fun p => p.1 = d)

/-- Modelled from the spec: topological sort with explicit cycle detection —
"returns either an ordering or the specific cycle (ordered file list) causing
failure".  Emits ready nodes one at a time; when none is ready the remaining
(cyclic) nodes are reported, in order, as the error. -/
def toposortGo [DecidableEq α] :
    Nat → List (α × List α) → List α → Except (List α) (List α)
  | 0, pending, acc =>
    if pending.isEmpty then Except.ok acc.reverse
    else Except.error (pending.map (·.1))
  | fuel + 1, pending, acc =>
    match topoPick pending with
    | some e => toposortGo fuel (pending.erase e) (e.1 :: acc)
    | none =>
      if pending.isEmpty then Except.ok acc.reverse
      else Except.error (pending.map (·.1))

def toposort [DecidableEq α] (edges : List (α × List α)) :
    Except (List α) (List α) :=
  toposortGo edges.length edges []

/-- The file-path projection of the graph (`file_path_graph`): package
identity is dropped, edges keyed by path alone, duplicate keys merged. -/
def filePathGraph (g : PkgFileGraph) : List (String × List String) :=
  g.edges.foldl
    (fun acc e =>
      match acc.lookup e.1.path with
      | some deps =>
        acc.map fun a =>
          if a.1 = e.1.path then (a.1, deps ++ e.2.map (·.path)) else a
      | none => acc ++ [(e.1.path, e.2.map (·.path))])
    []

/-- Rust's `str::trim_end`: drop trailing whitespace. -/
def rustTrimEnd (s : String) : String :=
  ⟨(s.data.reverse.dropWhile Char.isWhitespace).reverse⟩

/-- The formatted cycle listing of the `RecursiveLoad` diagnostic: one
`- file\n` line per cycle member, collected (concatenated) into one
string. -/
def formattedCycle : List String → String
  | [] => ""
  | file :: rest => "- " ++ file ++ "\n" ++ formattedCycle rest

/-- The `RecursiveLoad` diagnostic message built in `parse_program`. -/
def recursiveMsg (cycle : List String) : String :=
  "Could not compiles due to cyclic import statements\n" ++
    rustTrimEnd (formattedCycle cycle)

/-- `ast::Module`, reduced to the identity the program-assembly loop needs. -/
structure Module where
  filename : String
deriving Repr, DecidableEq

/-- `ast::Program`: root directory plus the `pkgpath → modules` map (as an
insertion-ordered association list). -/
structure Program where
  root : String
  pkgs : List (String × List Module)
deriving Repr, DecidableEq

/-- `LoadProgramResult`. -/
structure LoadProgramResult where
  program : Program
  errors : List Diagnostic
  paths : List String
deriving Repr, DecidableEq

/-- Append a module under its package path — the `match pkgs.get_mut`
insertion at the end of `parse_program`'s loop. -/
def insertModule (pkgs : List (String × List Module)) (pkgPath : String)
    (m : Module) : List (String × List Module) :=
  match pkgs.lookup pkgPath with
  | some _ => pkgs.map fun e => if e.1 = pkgPath then (e.1, e.2 ++ [m]) else e
  | none => pkgs ++ [(pkgPath, [m])]

/-- The per-file body of `parse_program`'s second pass: look the module up in
the AST cache (the source's `.expect` panic on a miss is modelled as a hard
failure), require the file in the `pkgmap` (likewise an `.expect`), apply the
relative-import rewriting (`fix_rel_import_path_with_file`, supplied as an
oracle together with the diagnostics its internal `find_packages` calls may
append), and file the module under its package path. -/
def assembleFiles (cache : List (String × Module)) (pkgmap : List (PkgFile × Pkg))
    (fixRel : PkgFile → Module → Module × List Diagnostic) :
    List PkgFile → List (String × List Module) → List Diagnostic →
    Except String (List (String × List Module) × List Diagnostic)
  | [], pkgs, diags => Except.ok (pkgs, diags)
  | file :: rest, pkgs, diags =>
    match cache.lookup file.path with
    | none => Except.error ("Module not found in module: " ++ file.path)
    | some m =>
      match pkgmap.lookup file with
      | none => Except.error "file not in pkgmap"
      | some _ =>
        let fixed := fixRel file m
        assembleFiles cache pkgmap fixRel rest
          (insertModule pkgs file.pkg_path fixed.1) (diags ++ fixed.2)

/-- The post-traversal tail of `parse_program` (`kclvm/parser/src/lib.rs`):
choose the file ordering by topological sort, falling back to the complete
file listing of the graph on failure; re-run the sort on the file-path
projection and, if it reports a cycle, append exactly one `RecursiveLoad`
diagnostic carrying the formatted cycle; then assemble the per-package module
map in the chosen order and return the `LoadProgramResult`. -/
def parse_program_tail (g : PkgFileGraph) (cache : List (String × Module))
    (pkgmap : List (PkgFile × Pkg))
    (fixRel : PkgFile → Module → Module × List Diagnostic)
    (workdir : String) (pkgs0 : List (String × List Module))
    (diags : List Diagnostic) : Except String LoadProgramResult :=
  let files :=
    match toposort g.edges with
    | Except.ok fs => fs
    | Except.error _ => g.nodes
  let diags1 :=
    match toposort (filePathGraph g) with
    | Except.ok _ => diags
    | Except.error cycle =>
      diags ++ [⟨ErrorKind.RecursiveLoad, recursiveMsg cycle⟩]
  match assembleFiles cache pkgmap fixRel files pkgs0 diags1 with
  | Except.error e => Except.error e
  | Except.ok (pkgs, diagsFinal) =>
    Except.ok
      { program := { root := workdir, pkgs := pkgs }
        errors := diagsFinal
        paths := files.map (·.path) }

end KclLoader

namespace KclParser

/-- Tokens of the modelled expression fragment.  Modelled from the spec: the
lexer source is not among the sampled sources; the fragment covers the token
kinds the claims exercise (integers, identifiers, arithmetic and comparison
operators, the config delimiters `=` `:` `,`, brackets, and the keyword
operators `is` / `in` / `not` / `and` / `or`). -/
inductive Token where
  | int (n : Nat)
  | ident (s : String)
  | plus
  | minus
  | star
  | slash
  | ltTok
  | gtTok
  | leTok
  | geTok
  | eqeq
  | noteq
  | assign
  | colon
  | comma
  | lbrack
  | rbrack
  | lbrace
  | rbrace
  | lparen
  | rparen
  | kwIs
  | kwIn
  | kwNot
  | kwAnd
  | kwOr
deriving Repr, DecidableEq

def isIdentChar (c : Char) : Bool :=
  c.isAlphanum || c = '_'

def digitsToNat (ds : List Char) : Nat :=
  ds.foldl (fun n c => n * 10 + (c.toNat - '0'.toNat)) 0

def keywordOrIdent (s : String) : Token :=
  if s = "is" then Token.kwIs
  else if s = "in" then Token.kwIn
  else if s = "not" then Token.kwNot
  else if s = "and" then Token.kwAnd
  else if s = "or" then Token.kwOr
  else Token.ident s

/-- Modelled from the spec: the lexer, restricted to the modelled fragment.
Whitespace separates tokens; maximal runs of digits form an integer literal;
maximal runs of identifier characters form an identifier or keyword; the
two-character operators are recognized greedily; an unknown character is
skipped (a lexical error produces a diagnostic and lexing continues). -/
def tokenizeGo : Nat → List Char → List Token
  | 0, _ => []
  | _, [] => []
  | fuel + 1, c :: rest =>
    if c = ' ' ∨ c = '\n' ∨ c = '\t' then
      tokenizeGo fuel rest
    else if c.isDigit then
      Token.int (digitsToNat ((c :: rest).takeWhile Char.isDigit)) ::
        tokenizeGo fuel ((c :: rest).dropWhile Char.isDigit)
    else if isIdentChar c then
      keywordOrIdent ⟨(c :: rest).takeWhile isIdentChar⟩ ::
        tokenizeGo fuel ((c :: rest).dropWhile isIdentChar)
    else
      match c, rest with
      | '=', '=' :: rest2 => Token.eqeq :: tokenizeGo fuel rest2
      | '!', '=' :: rest2 => Token.noteq :: tokenizeGo fuel rest2
      | '<', '=' :: rest2 => Token.leTok :: tokenizeGo fuel rest2
      | '>', '=' :: rest2 => Token.geTok :: tokenizeGo fuel rest2
      | '=', _ => Token.assign :: tokenizeGo fuel rest
      | '<', _ => Token.ltTok :: tokenizeGo fuel rest
      | '>', _ => Token.gtTok :: tokenizeGo fuel rest
      | '+', _ => Token.plus :: tokenizeGo fuel rest
      | '-', _ => Token.minus :: tokenizeGo fuel rest
      | '*', _ => Token.star :: tokenizeGo fuel rest
      | '/', _ => Token.slash :: tokenizeGo fuel rest
      | ':', _ => Token.colon :: tokenizeGo fuel rest
      | ',', _ => Token.comma :: tokenizeGo fuel rest
      | '[', _ => Token.lbrack :: tokenizeGo fuel rest
      | ']', _ => Token.rbrack :: tokenizeGo fuel rest
      | '{', _ => Token.lbrace :: tokenizeGo fuel rest
      | '}', _ => Token.rbrace :: tokenizeGo fuel rest
      | '(', _ => Token.lparen :: tokenizeGo fuel rest
      | ')', _ => Token.rparen :: tokenizeGo fuel rest
      | _, _ => tokenizeGo fuel rest

def tokenize (src : String) : List Token :=
  tokenizeGo (src.length + 1) src.data

/-- The comparison operators (`ast::CmpOp`); chained comparisons collect an
ordered list of these. -/
inductive CmpOp where
  | Lt
  | Gt
  | LtEq
  | GtEq
  | Eq
  | NotEq
  | Is
  | IsNot
  | In
  | NotIn
deriving Repr, DecidableEq

/-- The binary operators of the modelled fragment (`ast::BinOp`; `and` / `or`
appear as `Bin(And)` / `Bin(Or)` in the AST dumps of the parser tests). -/
inductive BinOp where
  | Add
  | Sub
  | Mul
  | Div
  | And
  | Or
deriving Repr, DecidableEq

/-- The merge-operation tag of a config entry (`ast::ConfigEntryOperation`):
`=` tags `Override`, `:` tags `Union`. -/
inductive ConfigOperation where
  | Union
  | Override
deriving Repr, DecidableEq

mutual
/-- The expression AST of the modelled fragment (`ast::Expr`, restricted to
the payload variants the claims exercise).  `missing` is the recovery
placeholder node the error policy prescribes. -/
inductive Expr where
  | intLit (value : Nat)
  | identifier (name : String)
  | binary (left : Expr) (op : BinOp) (right : Expr)
  | compare (left : Expr) (ops : List CmpOp) (comparators : List Expr)
  | list (elts : List Expr)
  | config (items : List ConfigEntry)
  | paren (inner : Expr)
  | missing

/-- `ast::ConfigEntry`: optional key, value, and the merge-operation tag. -/
inductive ConfigEntry where
  | mk (key : Option Expr) (value : Expr) (operation : ConfigOperation)
end

/-- Recognize a comparison operator at the head of the token stream
(`is not` and `not in` are two-token comparison operators). -/
def cmpOpOf : List Token → Option (CmpOp × List Token)
  | Token.ltTok :: ts => some (CmpOp.Lt, ts)
  | Token.gtTok :: ts => some (CmpOp.Gt, ts)
  | Token.leTok :: ts => some (CmpOp.LtEq, ts)
  | Token.geTok :: ts => some (CmpOp.GtEq, ts)
  | Token.eqeq :: ts => some (CmpOp.Eq, ts)
  | Token.noteq :: ts => some (CmpOp.NotEq, ts)
  | Token.kwIs :: Token.kwNot :: ts => some (CmpOp.IsNot, ts)
  | Token.kwIs :: ts => some (CmpOp.Is, ts)
  | Token.kwNot :: Token.kwIn :: ts => some (CmpOp.NotIn, ts)
  | Token.kwIn :: ts => some (CmpOp.In, ts)
  | _ => none

mutual
/-- Modelled from the spec: precedence-climbing expression parsing (`or` is
the loosest tier).  Every parse function is total: at the bottom of a tier a
mismatch yields the `missing` placeholder ("bump on mismatch, record
diagnostic, synthesize a placeholder node"), and recursion is bounded by
`fuel` (each call site passes the strictly smaller predecessor; the entry
point supplies fuel ample for its token count). -/
def parseOrExpr : Nat → List Token → Expr × List Token
  | 0, ts => (Expr.missing, ts)
  | fuel + 1, ts =>
    let st := parseAndExpr fuel ts
    parseOrRest fuel st.1 st.2

/-- The `(or operand)*` loop: left-associated `Bin(Or)` nodes. -/
def parseOrRest : Nat → Expr → List Token → Expr × List Token
  | 0, left, ts => (left, ts)
  | fuel + 1, left, Token.kwOr :: ts =>
    let st := parseAndExpr fuel ts
    parseOrRest fuel (Expr.binary left BinOp.Or st.1) st.2
  | _, left, ts => (left, ts)

/-- `and` binds tighter than `or`. -/
def parseAndExpr : Nat → List Token → Expr × List Token
  | 0, ts => (Expr.missing, ts)
  | fuel + 1, ts =>
    let st := parseCompareExpr fuel ts
    parseAndRest fuel st.1 st.2

/-- The `(and operand)*` loop: left-associated `Bin(And)` nodes. -/
def parseAndRest : Nat → Expr → List Token → Expr × List Token
  | 0, left, ts => (left, ts)
  | fuel + 1, left, Token.kwAnd :: ts =>
    let st := parseCompareExpr fuel ts
    parseAndRest fuel (Expr.binary left BinOp.And st.1) st.2
  | _, left, ts => (left, ts)

/-- Comparisons bind tighter than `and`; a chain of comparison operators
collapses into one `Compare` node with the ordered operator list and the
comparator list (no `Compare` is built when no comparison operator
follows). -/
def parseCompareExpr : Nat → List Token → Expr × List Token
  | 0, ts => (Expr.missing, ts)
  | fuel + 1, ts =>
    let st := parseAddExpr fuel ts
    let chain := parseCompareRest fuel st.2
    match chain.1.1 with
    | [] => (st.1, st.2)
    | ops => (Expr.compare st.1 ops chain.1.2, chain.2)

/-- The `(cmpop operand)*` chain collector: the ordered operator list paired
with the comparator list. -/
def parseCompareRest : Nat → List Token → (List CmpOp × List Expr) × List Token
  | 0, ts => (([], []), ts)
  | fuel + 1, ts =>
    match cmpOpOf ts with
    | some opTs =>
      let st := parseAddExpr fuel opTs.2
      let chain := parseCompareRest fuel st.2
      ((opTs.1 :: chain.1.1, st.1 :: chain.1.2), chain.2)
    | none => (([], []), ts)

/-- `+` / `-` bind tighter than comparisons. -/
def parseAddExpr : Nat → List Token → Expr × List Token
  | 0, ts => (Expr.missing, ts)
  | fuel + 1, ts =>
    let st := parseMulExpr fuel ts
    parseAddRest fuel st.1 st.2

/-- The `((+|-) operand)*` loop: left-associated additive nodes. -/
def parseAddRest : Nat → Expr → List Token → Expr × List Token
  | 0, left, ts => (left, ts)
  | fuel + 1, left, Token.plus :: ts =>
    let st := parseMulExpr fuel ts
    parseAddRest fuel (Expr.binary left BinOp.Add st.1) st.2
  | fuel + 1, left, Token.minus :: ts =>
    let st := parseMulExpr fuel ts
    parseAddRest fuel (Expr.binary left BinOp.Sub st.1) st.2
  | _, left, ts => (left, ts)

/-- `*` / `/` bind tighter than `+` / `-`. -/
def parseMulExpr : Nat → List Token → Expr × List Token
  | 0, ts => (Expr.missing, ts)
  | fuel + 1, ts =>
    let st := parseAtom fuel ts
    parseMulRest fuel st.1 st.2

/-- The `((*|/) operand)*` loop: left-associated multiplicative nodes. -/
def parseMulRest : Nat → Expr → List Token → Expr × List Token
  | 0, left, ts => (left, ts)
  | fuel + 1, left, Token.star :: ts =>
    let st := parseAtom fuel ts
    parseMulRest fuel (Expr.binary left BinOp.Mul st.1) st.2
  | fuel + 1, left, Token.slash :: ts =>
    let st := parseAtom fuel ts
    parseMulRest fuel (Expr.binary left BinOp.Div st.1) st.2
  | _, left, ts => (left, ts)

/-- The atoms of the fragment: literals, identifiers, parenthesized
expressions, list literals and config literals.  A missing closing delimiter
is tolerated: end of input closes the construct implicitly and the node built
so far is returned (the deliberate leniency policy for incomplete
buffers). -/
def parseAtom : Nat → List Token → Expr × List Token
  | 0, ts => (Expr.missing, ts)
  | _ + 1, Token.int n :: ts => (Expr.intLit n, ts)
  | _ + 1, Token.ident s :: ts => (Expr.identifier s, ts)
  | fuel + 1, Token.lparen :: ts =>
    let st := parseOrExpr fuel ts
    match st.2 with
    | Token.rparen :: ts2 => (Expr.paren st.1, ts2)
    | _ => (Expr.paren st.1, st.2)
  | fuel + 1, Token.lbrack :: ts => parseListItems fuel [] ts
  | fuel + 1, Token.lbrace :: ts => parseConfigItems fuel [] ts
  | _ + 1, ts => (Expr.missing, ts)

/-- List elements up to `]`, a comma between elements; end of input closes
the list implicitly. -/
def parseListItems : Nat → List Expr → List Token → Expr × List Token
  | 0, acc, ts => (Expr.list acc.reverse, ts)
  | _ + 1, acc, Token.rbrack :: ts => (Expr.list acc.reverse, ts)
  | fuel + 1, acc, Token.comma :: ts => parseListItems fuel acc ts
  | _ + 1, acc, [] => (Expr.list acc.reverse, [])
  | fuel + 1, acc, ts =>
    let st := parseOrExpr fuel ts
    parseListItems fuel (st.1 :: acc) st.2

/-- Config entries up to `}`, a comma between entries; end of input closes
the config implicitly. -/
def parseConfigItems : Nat → List ConfigEntry → List Token → Expr × List Token
  | 0, acc, ts => (Expr.config acc.reverse, ts)
  | _ + 1, acc, Token.rbrace :: ts => (Expr.config acc.reverse, ts)
  | fuel + 1, acc, Token.comma :: ts => parseConfigItems fuel acc ts
  | _ + 1, acc, [] => (Expr.config acc.reverse, [])
  | fuel + 1, acc, ts =>
    let key := parseOrExpr fuel ts
    let entry := parseEntryValue fuel key.1 key.2
    parseConfigItems fuel (entry.1 :: acc) entry.2

/-- After a config key: `=` tags the entry `Override`, `:` tags it `Union`,
each followed by the value expression; with neither delimiter the entry is
recovered with a `missing` value under the default `Union` tag. -/
def parseEntryValue : Nat → Expr → List Token → ConfigEntry × List Token
  | 0, key, ts => (ConfigEntry.mk (some key) Expr.missing ConfigOperation.Union, ts)
  | fuel + 1, key, Token.assign :: ts =>
    let st := parseOrExpr fuel ts
    (ConfigEntry.mk (some key) st.1 ConfigOperation.Override, st.2)
  | fuel + 1, key, Token.colon :: ts =>
    let st := parseOrExpr fuel ts
    (ConfigEntry.mk (some key) st.1 ConfigOperation.Union, st.2)
  | _ + 1, key, ts =>
    (ConfigEntry.mk (some key) Expr.missing ConfigOperation.Union, ts)
end

/-- The fuel budget of the entry point: ample for the descent the token
count can require. -/
def parseFuel (ts : List Token) : Nat :=
  10 * ts.length + 10

/-- `Parser::parse_expr` — the single-expression entry point: always
produces a node. -/
def parseExprString (src : String) : Expr :=
  (parseOrExpr (parseFuel (tokenize src)) (tokenize src)).1

/-- `parse_expr` from `kclvm/parser/src/lib.rs`: an empty source string
answers `None`; any other source is lexed and parsed and the resulting node
is returned under `Some` unconditionally (the inner `parser.parse_expr()`
returns a node, not an `Option`; syntax errors are recorded as diagnostics
while a best-effort node is still produced). -/
def parse_expr (src : String) : Option Expr :=
  if src.isEmpty then none
  else some (parseExprString src)

end KclParser

namespace KclScope

/-- A fixed position for scenario scope spans (spans are irrelevant to the
lookup claims). -/
def demoPos : Position := ⟨"/pkg/main.k", 1, none⟩

/-- Symbol arena of the nested-lookup scenario: symbol 0 is the package owner
(one attribute `pkgattr ↦ 77`), symbol 1 is the owner of the middle local
scope (one attribute `y ↦ 99`, deliberately not the queried name). -/
def c3SymbolData : SymbolData :=
  ⟨[(0, ⟨[("pkgattr", 77)]⟩), (1, ⟨[("y", 99)]⟩)]⟩

/-- Scope arena of the nested-lookup scenario: a root scope (owner symbol 0)
with three nested local scopes — local 0 defines `x ↦ target`, local 1 (child
of local 0) owns symbol 1 and defines nothing, local 2 (child of local 1)
defines nothing. -/
def c3ScopeData (target : SymbolIdx) : ScopeData :=
  ⟨[(0, ⟨⟨0, ScopeKind.Root⟩, none, [("x", target)], demoPos, demoPos⟩),
    (1, ⟨⟨0, ScopeKind.Local⟩, some 1, [], demoPos, demoPos⟩),
    (2, ⟨⟨1, ScopeKind.Local⟩, none, [], demoPos, demoPos⟩)],
   [(0, ⟨"pkg", "/pkg/main.k", 0⟩)]⟩

/-- Symbol arena of the root-scope `get_all_defs` scenario: the package owner
symbol's attribute table stores `b ↦ 5` before `a ↦ 3`, so its attribute list
is out of order. -/
def c8SymbolData : SymbolData :=
  ⟨[(0, ⟨[("b", 5), ("a", 3)]⟩)]⟩

/-- Scope arena of the root-scope `get_all_defs` scenario: a single root
scope owned by symbol 0. -/
def c8ScopeData : ScopeData :=
  ⟨[], [(0, ⟨"p", "/p/main.k", 0⟩)]⟩

end KclScope

namespace KclLoader

/-- The two mutually-importing files of the cycle scenario. -/
def c1FileA : PkgFile := ⟨"/w/a.k", "__main__"⟩

def c1FileB : PkgFile := ⟨"/w/b.k", "__main__"⟩

/-- The file graph of the cycle scenario: `a.k` imports `b.k` and `b.k`
imports `a.k`. -/
def c1Graph : PkgFileGraph :=
  ⟨[(c1FileA, [c1FileB]), (c1FileB, [c1FileA])]⟩

/-- AST cache of the cycle scenario: both files parsed. -/
def c1Cache : List (String × Module) :=
  [("/w/a.k", ⟨"/w/a.k"⟩), ("/w/b.k", ⟨"/w/b.k"⟩)]

/-- Package map of the cycle scenario. -/
def c1Pkgmap : List (PkgFile × Pkg) :=
  [(c1FileA, ⟨"__main__", "/w"⟩), (c1FileB, ⟨"__main__", "/w"⟩)]

/-- Resolution oracle of the conflict scenario: the same package path
resolves both under the current package root and under a vendor
directory. -/
def c2Env : ResolveEnv :=
  ⟨false, false,
    Except.ok (some ⟨"demo", "/root1", "demo.sub", ["/root1/demo/sub/x.k"]⟩),
    Except.ok (some ⟨"demo", "/vendor/demo", "demo.sub", ["/vendor/demo/sub/x.k"]⟩)⟩

end KclLoader

namespace KclLoader

theorem formattedCycle_append (a b : List String) :
    formattedCycle (a ++ b) = formattedCycle a ++ formattedCycle b := by
  induction a with
  | nil => simp [formattedCycle]
  | cons x xs ih => simp [formattedCycle, ih, String.append_assoc]

theorem rustTrimEnd_append (a b : String)
    (h : b.data.reverse.dropWhile Char.isWhitespace ≠ []) :
    rustTrimEnd (a ++ b) = a ++ rustTrimEnd b := by
  apply String.ext
  simp only [rustTrimEnd, String.data_append, List.reverse_append,
    List.dropWhile_append, List.isEmpty_iff, if_neg h, List.reverse_reverse]

theorem rustTrimEnd_append_newline (p : String) :
    rustTrimEnd (p ++ "\n") = rustTrimEnd p := by
  apply String.ext
  have hdata : ("\n" : String).data = ['\n'] := rfl
  simp [rustTrimEnd, String.data_append, hdata, List.dropWhile_cons]

theorem dropWhile_rev_ne_nil_of_fixed (p : String) (hne : p ≠ "")
    (hfix : rustTrimEnd p = p) :
    p.data.reverse.dropWhile Char.isWhitespace ≠ [] := by
  intro h0
  have hempty : rustTrimEnd p = "" := by
    apply String.ext
    simp [rustTrimEnd, h0]
  rw [hfix] at hempty
  exact hne hempty

theorem dropWhile_rev_ne_nil_of_mem (b : String) (c : Char) (hc : c ∈ b.data)
    (hws : c.isWhitespace = false) :
    b.data.reverse.dropWhile Char.isWhitespace ≠ [] := by
  rw [Ne, List.dropWhile_eq_nil_iff]
  intro hall
  have := hall c (List.mem_reverse.mpr hc)
  rw [hws] at this
  exact Bool.false_ne_true this

theorem recursiveMsg_names (cycle : List String) (p : String) (hp : p ∈ cycle)
    (hfix : rustTrimEnd p = p) :
    ∃ pre post, recursiveMsg cycle = pre ++ p ++ post := by
  by_cases hpe : p = ""
  · exact ⟨recursiveMsg cycle, "", by simp [hpe]⟩
  obtain ⟨l1, l2, rfl⟩ := List.append_of_mem hp
  rw [recursiveMsg, formattedCycle_append]
  cases l2 with
  | nil =>
    have h1 : formattedCycle l1 ++ formattedCycle [p]
        = (formattedCycle l1 ++ "- ") ++ (p ++ "\n") := by
      simp [formattedCycle, String.append_assoc]
    rw [h1, rustTrimEnd_append _ _ ?hnn, rustTrimEnd_append_newline, hfix]
    case hnn =>
      have hd : (p ++ "\n").data.reverse.dropWhile Char.isWhitespace
          = p.data.reverse.dropWhile Char.isWhitespace := by
        have hdata : ("\n" : String).data = ['\n'] := rfl
        simp [String.data_append, hdata, List.dropWhile_cons]
      rw [hd]
      exact dropWhile_rev_ne_nil_of_fixed p hpe hfix
    exact ⟨"Could not compiles due to cyclic import statements\n"
        ++ (formattedCycle l1 ++ "- "), "",
      by simp [String.append_assoc]⟩
  | cons q l2' =>
    have h1 : formattedCycle l1 ++ formattedCycle (p :: q :: l2')
        = (formattedCycle l1 ++ "- " ++ p ++ "\n") ++ formattedCycle (q :: l2') := by
      simp [formattedCycle, String.append_assoc]
    rw [h1, rustTrimEnd_append _ _ ?hnn2]
    case hnn2 =>
      apply dropWhile_rev_ne_nil_of_mem _ '-'
      · show '-' ∈ (formattedCycle (q :: l2')).data
        have h2 : formattedCycle (q :: l2')
            = "- " ++ (q ++ ("\n" ++ formattedCycle l2')) := by
          simp [formattedCycle, String.append_assoc]
        rw [h2, String.data_append]
        exact List.mem_append.mpr (Or.inl (by decide))
      · rfl
    exact ⟨"Could not compiles due to cyclic import statements\n"
        ++ formattedCycle l1 ++ "- ",
      "\n" ++ rustTrimEnd (formattedCycle (q :: l2')),
      by simp [String.append_assoc]⟩

theorem assembleFiles_ok (cache : List (String × Module))
    (pkgmap : List (PkgFile × Pkg))
    (fixRel : PkgFile → Module → Module × List Diagnostic)
    (hfix : ∀ f m d, d ∈ (fixRel f m).2 → d.kind = ErrorKind.CannotFindModule) :
    ∀ (files : List PkgFile) (pkgs : List (String × List Module))
      (diags : List Diagnostic),
      (∀ f ∈ files, (cache.lookup f.path).isSome ∧ (pkgmap.lookup f).isSome) →
      ∃ pkgs2 extra,
        assembleFiles cache pkgmap fixRel files pkgs diags
          = Except.ok (pkgs2, diags ++ extra)
        ∧ ∀ d ∈ extra, d.kind = ErrorKind.CannotFindModule := by
  intro files
  induction files with
  | nil =>
    intro pkgs diags _
    exact ⟨pkgs, [], by simp [assembleFiles], by simp⟩
  | cons f rest ih =>
    intro pkgs diags hall
    obtain ⟨h1, h2⟩ := hall f (by simp)
    obtain ⟨m, hm⟩ := Option.isSome_iff_exists.mp h1
    obtain ⟨pk, hpk⟩ := Option.isSome_iff_exists.mp h2
    obtain ⟨pkgs2, extra, heq, hkinds⟩ :=
      ih (insertModule pkgs f.pkg_path (fixRel f m).1) (diags ++ (fixRel f m).2)
        (fun g hg => hall g (List.mem_cons_of_mem _ hg))
    refine ⟨pkgs2, (fixRel f m).2 ++ extra, ?_, ?_⟩
    · simp only [assembleFiles, hm, hpk]
      rw [heq, List.append_assoc]
    · intro d hd
      rcases List.mem_append.mp hd with hd1 | hd2
      · exact hfix f m d hd1
      · exact hkinds d hd2

end KclLoader

namespace KclLoader

/-- C2: for every import path that reaches the conflict check (non-empty,
neither a plugin nor a builtin path) and for which both internal package
resolution and external/vendor package resolution succeed, `find_packages`
appends one `CannotFindModule` error whose message contains "found multiple
times" and returns `Ok(None)`, so neither resolution is used. -/
theorem claim_C2_conflict_neither_used (pkgPath : String) (loadPlugins : Bool)
    (env : ResolveEnv) (diags : List Diagnostic) (pi pe : PkgInfo)
    (hplug : env.isPlugin = false) (hbuiltin : env.isBuiltin = false)
    (hne : pkgPath ≠ "")
    (hint : env.internalRes = Except.ok (some pi))
    (hvnd : env.vendorRes = Except.ok (some pe)) :
    find_packages pkgPath loadPlugins env diags
      = (Except.ok none,
          diags ++ [⟨ErrorKind.CannotFindModule, multipleFoundMsg pkgPath⟩])
    ∧ ∃ pre post,
        multipleFoundMsg pkgPath = pre ++ "found multiple times" ++ post := by
  constructor
  · simp [find_packages, hplug, hbuiltin, hne, hint, hvnd]
  · refine ⟨"the `" ++ pkgPath ++ "` is ",
      " in the current package and vendor package", ?_⟩
    have hlit : ("` is found multiple times in the current package and vendor package" : String)
        = "` is " ++ "found multiple times"
          ++ " in the current package and vendor package" := by decide
    rw [multipleFoundMsg, hlit]
    simp [String.append_assoc]

/-- C2 witness: the conflict scenario `c2Env` (package path `demo.sub`
resolvable both internally and in a vendor directory) exercises the
theorem. -/
theorem claim_C2_conflict_neither_used_witness :
    find_packages "demo.sub" false c2Env []
      = (Except.ok none,
          [⟨ErrorKind.CannotFindModule, multipleFoundMsg "demo.sub"⟩])
    ∧ ∃ pre post,
        multipleFoundMsg "demo.sub" = pre ++ "found multiple times" ++ post :=
  claim_C2_conflict_neither_used "demo.sub" false c2Env [] _ _ rfl rfl
    (by decide) rfl rfl

/-- C1: whenever the topological sorts of the file graph and of its file-path
projection both fail (mutually importing files), the tail of `parse_program`
appends exactly one `RecursiveLoad` diagnostic, the diagnostic's message names
every file of the reported cycle, the call still returns `Ok` with a
`LoadProgramResult` carrying a `Program`, and the returned file ordering is
the complete (unsorted) file listing of the graph. -/
theorem claim_C1_recursive_load (g : PkgFileGraph)
    (cache : List (String × Module)) (pkgmap : List (PkgFile × Pkg))
    (fixRel : PkgFile → Module → Module × List Diagnostic)
    (workdir : String) (pkgs0 : List (String × List Module))
    (diags : List Diagnostic) (c1 : List PkgFile) (cycle : List String)
    (hpkg : toposort g.edges = Except.error c1)
    (hpath : toposort (filePathGraph g) = Except.error cycle)
    (hcache : ∀ f ∈ g.nodes, (cache.lookup f.path).isSome
      ∧ (pkgmap.lookup f).isSome)
    (hfix : ∀ f m d, d ∈ (fixRel f m).2 → d.kind = ErrorKind.CannotFindModule)
    (hnorec : ∀ d ∈ diags, d.kind ≠ ErrorKind.RecursiveLoad) :
    ∃ res, parse_program_tail g cache pkgmap fixRel workdir pkgs0 diags
        = Except.ok res
      ∧ res.paths = g.nodes.map (·.path)
      ∧ (res.errors.filter fun d =>
          d.kind = ErrorKind.RecursiveLoad).length = 1
      ∧ Diagnostic.mk ErrorKind.RecursiveLoad (recursiveMsg cycle) ∈ res.errors
      ∧ ∀ p ∈ cycle, rustTrimEnd p = p →
          ∃ pre post, recursiveMsg cycle = pre ++ p ++ post := by
  obtain ⟨pkgs2, extra, heq, hkinds⟩ :=
    assembleFiles_ok cache pkgmap fixRel hfix g.nodes pkgs0
      (diags ++ [⟨ErrorKind.RecursiveLoad, recursiveMsg cycle⟩]) hcache
  refine ⟨⟨⟨workdir, pkgs2⟩,
      (diags ++ [⟨ErrorKind.RecursiveLoad, recursiveMsg cycle⟩]) ++ extra,
      g.nodes.map (·.path)⟩, ?_, rfl, ?_, ?_, ?_⟩
  · simp only [parse_program_tail, hpkg, hpath]
    rw [heq]
  · simp only [List.filter_append, List.length_append]
    have hd : (diags.filter fun d => d.kind = ErrorKind.RecursiveLoad) = [] := by
      apply List.filter_eq_nil_iff.mpr
      intro d hd
      simp [hnorec d hd]
    have he : (extra.filter fun d => d.kind = ErrorKind.RecursiveLoad) = [] := by
      apply List.filter_eq_nil_iff.mpr
      intro d hd
      simp [hkinds d hd]
    simp [hd, he]
  · simp
  · intro p hp hfixp
    exact recursiveMsg_names cycle p hp hfixp

/-- C1 witness: the two-file mutual-import graph `c1Graph` (a.k ↔ b.k)
exercises the theorem; both toposorts report the cycle `[a.k, b.k]` and both
file names appear in the diagnostic message. -/
theorem claim_C1_recursive_load_witness :
    (toposort (filePathGraph c1Graph)
      = Except.error ["/w/a.k", "/w/b.k"])
    ∧ ∃ res, parse_program_tail c1Graph c1Cache c1Pkgmap
          (fun _ m => (m, [])) "/w" [] []
        = Except.ok res
      ∧ res.paths = c1Graph.nodes.map (·.path)
      ∧ (res.errors.filter fun d =>
          d.kind = ErrorKind.RecursiveLoad).length = 1
      ∧ Diagnostic.mk ErrorKind.RecursiveLoad
          (recursiveMsg ["/w/a.k", "/w/b.k"]) ∈ res.errors
      ∧ ∀ p ∈ ["/w/a.k", "/w/b.k"], rustTrimEnd p = p →
          ∃ pre post,
            recursiveMsg ["/w/a.k", "/w/b.k"] = pre ++ p ++ post :=
  ⟨rfl,
    claim_C1_recursive_load c1Graph c1Cache c1Pkgmap (fun _ m => (m, []))
      "/w" [] [] [c1FileA, c1FileB] ["/w/a.k", "/w/b.k"] rfl rfl
      (by decide) (by simp) (by simp)⟩

end KclLoader

namespace KclScope

/-- C3: `look_up_def` checks local definitions first, then the owner
symbol's attribute table, then the parent scope, terminating at the root
scope's package owner attributes, and answers `none` only when the whole
chain fails.  In the three-level nesting of `c3ScopeData` (no local
definition of `x` below the outermost local scope, an intermediate scope
owning a symbol whose attributes do not contain `x`): the lookup of `x` from
the innermost scope returns the ancestor's symbol `target`; the lookup of the
package owner's attribute `pkgattr` walks the entire chain to the root and
finds it; and a name absent from every step answers `none`. -/
theorem claim_C3_look_up_def_chain (target : SymbolIdx) :
    lookUpDef 10 ⟨2, ScopeKind.Local⟩ "x" (c3ScopeData target) c3SymbolData
      = some target
    ∧ lookUpDef 10 ⟨2, ScopeKind.Local⟩ "pkgattr" (c3ScopeData target)
        c3SymbolData = some 77
    ∧ lookUpDef 10 ⟨2, ScopeKind.Local⟩ "absent" (c3ScopeData target)
        c3SymbolData = none :=
  ⟨rfl, rfl, rfl⟩

/-- C8 counterexample: the claim asserts that `get_all_defs` returns a sorted
collection for every scope, but `RootSymbolScope::get_all_defs` performs no
sort — it returns the package owner's attributes in stored order.  With the
owner's attribute table storing `b ↦ 5` before `a ↦ 3`, the root scope's
`get_all_defs` answers `[5, 3]`, which is not sorted. -/
theorem claim_C8_counterexample :
    getAllDefs 5 ⟨0, ScopeKind.Root⟩ c8ScopeData c8SymbolData = [5, 3]
    ∧ ¬ List.Sorted (· ≤ ·)
        (getAllDefs 5 ⟨0, ScopeKind.Root⟩ c8ScopeData c8SymbolData) :=
  ⟨rfl, by decide⟩

/-- C8 (amended): for every Local scope, `get_all_defs` accumulates rather
than short-circuits — its result is a permutation of the scope's own
definition values, the owner symbol's attributes, and the parent scope's
visible definitions — and the returned collection is sorted; a Root scope's
`get_all_defs` returns the package owner's attributes in stored order,
without sorting. -/
theorem claim_C8_get_all_defs_amended (fuel : Nat) (sd : ScopeData)
    (symd : SymbolData) (i : Nat) (L : LocalSymbolScope)
    (hL : sd.getLocal i = some L) :
    List.Sorted (· ≤ ·) (getAllDefs (fuel + 1) ⟨i, ScopeKind.Local⟩ sd symd)
    ∧ (getAllDefs (fuel + 1) ⟨i, ScopeKind.Local⟩ sd symd).Perm
        (L.defs.map (·.2) ++ ownerAttributes symd L
          ++ getAllDefs fuel L.parent sd symd)
    ∧ ∀ (j : Nat) (R : RootSymbolScope), sd.getRoot j = some R →
        getAllDefs (fuel + 1) ⟨j, ScopeKind.Root⟩ sd symd
          = R.getAllDefs symd := by
  refine ⟨?_, ?_, ?_⟩
  · simp only [getAllDefs, hL]
    exact List.sorted_mergeSort' _
  · simp only [getAllDefs, hL]
    exact List.mergeSort_perm _ _
  · intro j R hR
    simp only [getAllDefs, hR]

/-- C8 witness: the amended theorem instantiated at the middle local scope of
`c3ScopeData` (which has an owner and a parent). -/
theorem claim_C8_get_all_defs_amended_witness :
    List.Sorted (· ≤ ·)
      (getAllDefs 3 ⟨1, ScopeKind.Local⟩ (c3ScopeData 42) c3SymbolData)
    ∧ (getAllDefs 3 ⟨1, ScopeKind.Local⟩ (c3ScopeData 42) c3SymbolData).Perm
        ((⟨⟨0, ScopeKind.Local⟩, some 1, [], demoPos, demoPos⟩
            : LocalSymbolScope).defs.map (·.2)
          ++ ownerAttributes c3SymbolData
              ⟨⟨0, ScopeKind.Local⟩, some 1, [], demoPos, demoPos⟩
          ++ getAllDefs 2 ⟨0, ScopeKind.Local⟩ (c3ScopeData 42) c3SymbolData)
    ∧ ∀ (j : Nat) (R : RootSymbolScope), (c3ScopeData 42).getRoot j = some R →
        getAllDefs 3 ⟨j, ScopeKind.Root⟩ (c3ScopeData 42) c3SymbolData
          = R.getAllDefs c3SymbolData :=
  claim_C8_get_all_defs_amended 2 (c3ScopeData 42) c3SymbolData 1 _ rfl

/-- C9: `contains_pos` on a Local scope holds exactly when the position's
file equals the scope's file and the position lies within `[start, end]`;
`contains_pos` on a Root scope holds exactly when the position's file is the
scope's own file (both sides compared with their `.k` suffix stripped) or the
position's file lives directly in the package's physical directory (its
parent path is the scope's stripped path). -/
theorem claim_C9_contains_pos (r : RootSymbolScope) (l : LocalSymbolScope)
    (pos : Position) :
    (r.containsPos pos = true ↔ rootContainsPosSpec r pos)
    ∧ (l.containsPos pos = true ↔ localContainsPosSpec l pos) := by
  constructor
  · unfold RootSymbolScope.containsPos rootContainsPosSpec
    by_cases h : pathComponents (stripK r.filename)
        = pathComponents (stripK pos.filename)
    · simp [h]
    · have h2 : pathComponents (stripK pos.filename)
          ≠ pathComponents (stripK r.filename) := fun hh => h hh.symm
      cases hpar : pathParent (pathComponents (stripK pos.filename)) with
      | none => simp [h, h2, hpar]
      | some par => simp [h, h2, hpar, eq_comm]
  · unfold LocalSymbolScope.containsPos localContainsPosSpec
    simp

end KclScope

namespace KclParser

/-- C4: `"0 < a < 100"` parses to a single `Compare` node with ordered
operator list `[Lt, Lt]` and comparators `[a, 100]` — not to nested binary
comparisons — and chained comparison operators of every tier (`>`
repetitions, `is` / `is not` chains, `not in`) likewise collapse into one
`Compare` node with ordered operator and comparator lists. -/
theorem claim_C4_chained_compare :
    parseExprString "0 < a < 100"
      = Expr.compare (Expr.intLit 0) [CmpOp.Lt, CmpOp.Lt]
          [Expr.identifier "a", Expr.intLit 100]
    ∧ parseExprString "100 + a > a > 0"
      = Expr.compare
          (Expr.binary (Expr.intLit 100) BinOp.Add (Expr.identifier "a"))
          [CmpOp.Gt, CmpOp.Gt] [Expr.identifier "a", Expr.intLit 0]
    ∧ parseExprString "a is b is not c"
      = Expr.compare (Expr.identifier "a") [CmpOp.Is, CmpOp.IsNot]
          [Expr.identifier "b", Expr.identifier "c"]
    ∧ parseExprString "key not in b"
      = Expr.compare (Expr.identifier "key") [CmpOp.NotIn]
          [Expr.identifier "b"] :=
  ⟨rfl, rfl, rfl, rfl⟩

/-- C5: `"1+2*3-4"` parses with `*` binding tighter than both `+` and `-`
and the additive operators associating to the left: `((1+(2*3))-4)`. -/
theorem claim_C5_precedence :
    parseExprString "1+2*3-4"
      = Expr.binary
          (Expr.binary (Expr.intLit 1) BinOp.Add
            (Expr.binary (Expr.intLit 2) BinOp.Mul (Expr.intLit 3)))
          BinOp.Sub (Expr.intLit 4) :=
  rfl

/-- C6: in a config literal an entry written with `=` is tagged `Override`
and an entry written with `:` is tagged `Union`: after any config key, the
`=` delimiter always produces an `Override` entry and the `:` delimiter
always a `Union` entry (for every key and every token tail), and concretely
`"{k0=v0}"` parses to an `Override` entry while `"{k: v}"` parses to a
`Union` entry. -/
theorem claim_C6_merge_operation_tags :
    (∀ (fuel : Nat) (key : Expr) (ts : List Token),
      parseEntryValue (fuel + 1) key (Token.assign :: ts)
        = (ConfigEntry.mk (some key) (parseOrExpr fuel ts).1
            ConfigOperation.Override, (parseOrExpr fuel ts).2))
    ∧ (∀ (fuel : Nat) (key : Expr) (ts : List Token),
      parseEntryValue (fuel + 1) key (Token.colon :: ts)
        = (ConfigEntry.mk (some key) (parseOrExpr fuel ts).1
            ConfigOperation.Union, (parseOrExpr fuel ts).2))
    ∧ parseExprString "{k0=v0}"
      = Expr.config [ConfigEntry.mk (some (Expr.identifier "k0"))
          (Expr.identifier "v0") ConfigOperation.Override]
    ∧ parseExprString "{k: v}"
      = Expr.config [ConfigEntry.mk (some (Expr.identifier "k"))
          (Expr.identifier "v") ConfigOperation.Union] :=
  ⟨fun _ _ _ => rfl, fun _ _ _ => rfl, rfl, rfl⟩

/-- C7: an unterminated bracket construct treats end-of-input as an implicit
close and still yields a node: `"[1, 2"` parses to a `List` node containing
both elements, and `"{"` alone parses to a `Config` node with an empty item
list. -/
theorem claim_C7_recoverable_brackets :
    parseExprString "[1, 2" = Expr.list [Expr.intLit 1, Expr.intLit 2]
    ∧ parseExprString "\x7b" = Expr.config [] :=
  ⟨rfl, rfl⟩

/-- C10: `parse_expr` returns `None` exactly when its input source string is
empty, and on every non-empty input it returns `Some` node (the best-effort
node the inner parser always produces). -/
theorem claim_C10_parse_expr_none_iff_empty (src : String) :
    (parse_expr src = none ↔ src = "")
    ∧ parse_expr src
        = if src = "" then none else some (parseExprString src) := by
  unfold parse_expr
  by_cases h : src = "" <;> simp [h, String.isEmpty_iff]

end KclParser
